import Mathlib

/-!
Shallow embedding of `src/app.py` (MACU schedule combiner).

Python string/pandas primitives are modelled explicitly:
* cells of the all-text dataframe are `Option String` (`none` = NaN),
* `str.strip` / `str.upper` / `str.lower` / `in` / `count` / `split` are
  modelled on the underlying character list,
* `pd.to_datetime` with an explicit format is modelled as a strict
  field-wise parser; the free-form `pd.to_datetime(s, dayfirst=True)`
  call (dateutil) is modelled on slash-separated numeric dates, the only
  shapes the specification talks about; everything else is unparseable,
* `pd.NaT` / a date that failed to parse is `none`; after the
  `fillna(pd.Timestamp.max)` step the `none` key compares above every
  parsed date, which is sound because out-of-range dates make
  `pd.to_datetime` raise (caught, hence `NaT`) rather than exceed
  `pd.Timestamp.max`,
* `pd.Timestamp.min` / `pd.Timestamp.max` sentinels of `get_sort_time`
  are the `SortTime.tmin` / `SortTime.tmax` constructors,
* the stable multi-key `sort_values` (numpy lexsort) is modelled as
  insertion sort by the same lexicographic key: any two stable sorts by
  the same total preorder agree,
* a raised-and-caught exception during per-file processing is the
  `ProcResult.failed` constructor; an exception raised to the caller is
  the `Except.error` case of the combined result.
-/

/-- Python `str.strip()`: drop leading and trailing whitespace. -/
def pyStrip (s : String) : String :=
  ⟨((s.data.dropWhile Char.isWhitespace).reverse.dropWhile Char.isWhitespace).reverse⟩

/-- Python `str.upper()` (ASCII behaviour suffices for this program). -/
def pyUpper (s : String) : String := ⟨s.data.map Char.toUpper⟩

/-- Python `str.lower()` (ASCII behaviour suffices for this program). -/
def pyLower (s : String) : String := ⟨s.data.map Char.toLower⟩

/-- Python `c in s` for a single-character needle. -/
def pyContains (s : String) (c : Char) : Bool := decide (c ∈ s.data)

/-- Python `s.count(c)` for a single-character needle. -/
def pyCount (s : String) (c : Char) : Nat := s.data.count c

/-- Split a character list at every occurrence of `c` (Python `str.split(c)`). -/
def splitChar (c : Char) : List Char → List (List Char)
  | [] => [[]]
  | x :: xs =>
    match splitChar c xs with
    | [] => [[]]
    | y :: ys => if x = c then [] :: y :: ys else (x :: y) :: ys

/-- Python `s.split(c)` for a single-character separator. -/
def pySplit (s : String) (c : Char) : List String :=
  (splitChar c s.data).map (fun l => ⟨l⟩)

/-- Numeric value of a digit-character list (most significant first). -/
def natOfDigits (l : List Char) : Nat :=
  l.foldl (fun a c => 10 * a + (c.toNat - 48)) 0

/-- Parse a non-empty all-digit string as a natural number (the digit-field
part of a `strptime`-style parse). -/
def pyToNat (s : String) : Option Nat :=
  if s.data ≠ [] ∧ s.data.all Char.isDigit then some (natOfDigits s.data) else none

/-- Gregorian leap-year test. -/
def isLeap (y : Nat) : Bool := (y % 4 = 0 && y % 100 ≠ 0) || y % 400 = 0

/-- Number of days in a month. -/
def daysInMonth (y m : Nat) : Nat :=
  if m = 2 then (if isLeap y then 29 else 28)
  else if m = 4 ∨ m = 6 ∨ m = 9 ∨ m = 11 then 30 else 31

/-- Validity of a calendar date, as `datetime` enforces it. -/
def validDate (y m d : Nat) : Bool :=
  1 ≤ m && m ≤ 12 && 1 ≤ d && d ≤ daysInMonth y m

/-- A parsed calendar date (the payload of a `pd.Timestamp`). -/
structure Date where
  year : Nat
  month : Nat
  day : Nat
deriving DecidableEq, Repr

/-- Chronological (calendar) strict order on dates. -/
def dateLtb (a b : Date) : Bool :=
  if a.year ≠ b.year then a.year < b.year
  else if a.month ≠ b.month then a.month < b.month
  else a.day < b.day

/-- Order on the date sort key after `fillna(pd.Timestamp.max)`: `none`
(was `NaT`, replaced by `Timestamp.max`) compares above every parsed date. -/
def sortDateLtb : Option Date → Option Date → Bool
  | some a, some b => dateLtb a b
  | some _, none => true
  | none, _ => false

/-- The pandas `Timestamp` range at nanosecond precision: a date-only
(midnight) value converts iff it lies strictly after 1677-09-21 (whose
midnight precedes `Timestamp.min`) and strictly before 2262-04-12; outside
it, `pd.Timestamp` raises `OutOfBoundsDatetime`, a `ValueError` subclass
that every parse branch catches into `NaT`. -/
def inTimestampBounds (d : Date) : Bool :=
  dateLtb ⟨1677, 9, 21⟩ d && dateLtb d ⟨2262, 4, 12⟩

/-- Bounds check applied to a parsed date: the `OutOfBoundsDatetime` raise
at `Timestamp` conversion, caught by the caller into `NaT`. -/
def boundsFilter (o : Option Date) : Option Date :=
  match o with
  | some d => if inTimestampBounds d then some d else none
  | none => none

/-- Strict `pd.to_datetime(x, format='%m/%d/%Y')`: month-first slash date
(`%Y` is exactly four digits; out-of-range timestamps raise, hence `none`). -/
def parse_mdy (s : String) : Option Date :=
  match pySplit s '/' with
  | [ms, ds, ys] =>
    match pyToNat ms, pyToNat ds, pyToNat ys with
    | some m, some d, some y =>
      if ms.data.length ≤ 2 ∧ ds.data.length ≤ 2 ∧ ys.data.length = 4 ∧
          validDate y m d = true ∧ inTimestampBounds ⟨y, m, d⟩ = true then
        some ⟨y, m, d⟩ else none
    | _, _, _ => none
  | _ => none

/-- Strict `pd.to_datetime(x, format='%Y-%m-%d')`: ISO year-month-day
(`%Y` is exactly four digits; out-of-range timestamps raise, hence `none`). -/
def parse_ymd (s : String) : Option Date :=
  match pySplit s '-' with
  | [ys, ms, ds] =>
    match pyToNat ys, pyToNat ms, pyToNat ds with
    | some y, some m, some d =>
      if ys.data.length = 4 ∧ ms.data.length ≤ 2 ∧ ds.data.length ≤ 2 ∧
          validDate y m d = true ∧ inTimestampBounds ⟨y, m, d⟩ = true then
        some ⟨y, m, d⟩ else none
    | _, _, _ => none
  | _ => none

/-- dateutil's two-digit-year convention: the century of the current year,
adjusted to land within fifty years of it (for a current year of 2026,
00-75 map to 2000-2075 and 76-99 map to 1976-1999). -/
def twoDigitYear (y : Nat) : Nat := if y ≤ 75 then 2000 + y else 1900 + y

/-- dateutil's `dayfirst=True` resolution of the two field readings:
day-first is preferred, and the month-first reading is used only when the
day-first one is not a valid calendar date. -/
def dayfirstPick (y a b : Nat) : Option Date :=
  if validDate y b a then some ⟨y, b, a⟩
  else if validDate y a b then some ⟨y, a, b⟩
  else none

/-- Model of `pd.to_datetime(s, dayfirst=True)` (the dateutil parser) on
slash-separated numeric dates, the only inputs the program's spec exercises
on this branch. Anything that is not three slash-separated digit fields is
modelled as unparseable; a date dateutil accepts but the `Timestamp`
conversion rejects (out of range) raises, caught by the caller into NaT. -/
def genericDayfirst (s : String) : Option Date :=
  match pySplit s '/' with
  | [as, bs, cs] =>
    match pyToNat as, pyToNat bs, pyToNat cs with
    | some a, some b, some c =>
      if as.data.length ≤ 2 ∧ bs.data.length ≤ 2 ∧ cs.data.length ≤ 4 then
        boundsFilter
          (dayfirstPick (if cs.data.length ≤ 2 then twoDigitYear c else c) a b)
      else none
    | _, _, _ => none
  | _ => none

/-- The "start-end/year" recombination of the range branch:
`date_str.split('-')[0] + '/' + date_str.split('/')[-1]`. -/
def rangeRecombined (s : String) : String :=
  ((pySplit s '-').headD "") ++ "/" ++ ((pySplit s '/').getLastD "")

/-- Python `date_str.split(' ')[0]`. -/
def firstSpaceField (s : String) : String := (pySplit s ' ').headD ""

/-- Body of `parse_for_sorting` after `str(date_str).strip()`. -/
def parse_core (s : String) : Option Date :=
  if pyUpper s = "TBA" ∨ pyUpper s = "NAN" then none
  else if pyContains s '-' ∧ pyContains s '/' then parse_mdy (rangeRecombined s)
  else if pyContains s '-' ∧ pyCount s '-' = 2 then parse_ymd (firstSpaceField s)
  else genericDayfirst s

/-- `parse_for_sorting` of `src/app.py`: date cell to sortable value, `none`
standing for `pd.NaT`. -/
def parse_for_sorting (cell : Option String) : Option Date :=
  match cell with
  | none => none
  | some s => parse_core (pyStrip s)

/-- Zero-pad a number to two digits (`strftime` field). -/
def pad2 (n : Nat) : String := if n < 10 then "0" ++ toString n else toString n

/-- Zero-pad a number to four digits (`strftime` `%Y` field). -/
def pad4 (n : Nat) : String :=
  if n < 10 then "000" ++ toString n
  else if n < 100 then "00" ++ toString n
  else if n < 1000 then "0" ++ toString n
  else toString n

/-- The `strftime('%d/%m/%Y')` rendering of a parsed date. -/
def fmtDMY (d : Date) : String := pad2 d.day ++ "/" ++ pad2 d.month ++ "/" ++ pad4 d.year

/-- The `strftime('%I:%M %p')` rendering of a time-of-day given as minutes
after midnight. -/
def fmt12 (mins : Nat) : String :=
  let h24 := mins / 60
  let m := mins % 60
  let h12 := if h24 % 12 = 0 then 12 else h24 % 12
  pad2 h12 ++ ":" ++ pad2 m ++ " " ++ (if 12 ≤ h24 then "PM" else "AM")

/-- The `%p` field: AM/PM marker, case-insensitive; `true` means PM. -/
def parseAmPm (s : String) : Option Bool :=
  if pyUpper s = "AM" then some false
  else if pyUpper s = "PM" then some true else none

/-- Minutes after midnight from a 12-hour clock reading. -/
def minutesOf12 (h : Nat) (m : Nat) (pm : Bool) : Nat :=
  (h % 12 + if pm then 12 else 0) * 60 + m

/-- A literal space in a `strptime` format is compiled (by CPython's
`TimeRE`, which pandas reuses) to one-or-more whitespace characters. This
splits the input at that position: a maximal non-whitespace prefix, a
non-empty whitespace run, and a whitespace-free remainder; any other shape
fails the format. -/
def splitWsRun (l : List Char) : Option (List Char × List Char) :=
  let a := l.takeWhile (fun c => ¬ c.isWhitespace)
  let rest := l.dropWhile (fun c => ¬ c.isWhitespace)
  let w := rest.takeWhile Char.isWhitespace
  let b := rest.dropWhile Char.isWhitespace
  if w ≠ [] ∧ b ≠ [] ∧ b.all (fun c => ¬ c.isWhitespace) then some (a, b) else none

/-- Strict `pd.to_datetime(x, format='%I:%M %p')`, as minutes after
midnight; the format's space matches any whitespace run. -/
def p_IMp (s : String) : Option Nat :=
  match splitWsRun s.data with
  | some (hm, ap) =>
    match parseAmPm ⟨ap⟩, pySplit ⟨hm⟩ ':' with
    | some pm, [hs, ms] =>
      match pyToNat hs, pyToNat ms with
      | some h, some m =>
        if hs.data.length ≤ 2 ∧ ms.data.length ≤ 2 ∧
            1 ≤ h ∧ h ≤ 12 ∧ m ≤ 59 then some (minutesOf12 h m pm) else none
      | _, _ => none
    | _, _ => none
  | none => none

/-- Strict `pd.to_datetime(x, format='%H:%M')`, as minutes after midnight. -/
def p_HM (s : String) : Option Nat :=
  match pySplit s ':' with
  | [hs, ms] =>
    match pyToNat hs, pyToNat ms with
    | some h, some m =>
      if hs.data.length ≤ 2 ∧ ms.data.length ≤ 2 ∧ h ≤ 23 ∧ m ≤ 59 then
        some (h * 60 + m) else none
    | _, _ => none
  | _ => none

/-- Strict `pd.to_datetime(x, format='%I %p')`, as minutes after midnight;
the format's space matches any whitespace run. -/
def p_Ip (s : String) : Option Nat :=
  match splitWsRun s.data with
  | some (hs, ap) =>
    match parseAmPm ⟨ap⟩, pyToNat ⟨hs⟩ with
    | some pm, some h =>
      if hs.length ≤ 2 ∧ 1 ≤ h ∧ h ≤ 12 then some (minutesOf12 h 0 pm) else none
    | _, _ => none
  | none => none

/-- Strict `pd.to_datetime(x, format='%I:%M%p')` (no space before AM/PM). -/
def p_IMp_ns (s : String) : Option Nat :=
  let d := s.data
  if 3 ≤ d.length then
    match parseAmPm ⟨d.drop (d.length - 2)⟩, pySplit ⟨d.take (d.length - 2)⟩ ':' with
    | some pm, [hs, ms] =>
      match pyToNat hs, pyToNat ms with
      | some h, some m =>
        if hs.data.length ≤ 2 ∧ ms.data.length ≤ 2 ∧
            1 ≤ h ∧ h ≤ 12 ∧ m ≤ 59 then some (minutesOf12 h m pm) else none
      | _, _ => none
    | _, _ => none
  else none

/-- The `re.match(r'^\d\d:\d\d:\d\d$', ...)` branch: strict `%H:%M:%S` with
two digits per field, reformatted with `strftime('%I:%M %p')` on success;
`none` when the regex or the parse fails (the code then falls through to the
generic format list). -/
def hmsDisplay (s : String) : Option String :=
  match pySplit s ':' with
  | [hs, ms, ss] =>
    match pyToNat hs, pyToNat ms, pyToNat ss with
    | some h, some m, some sec =>
      if hs.data.length = 2 ∧ ms.data.length = 2 ∧ ss.data.length = 2 ∧
          h ≤ 23 ∧ m ≤ 59 ∧ sec ≤ 59 then some (fmt12 (h * 60 + m)) else none
    | _, _, _ => none
  | _ => none

/-- `parse_time_string` of `src/app.py`: raw time cell to display string. -/
def parse_time_string (cell : Option String) : String :=
  match cell with
  | none => "TBA"
  | some s0 =>
    if pyUpper (pyStrip s0) = "TBA" ∨ pyUpper (pyStrip s0) = "NAN" ∨
        pyUpper (pyStrip s0) = "" then "TBA"
    else
      let s := pyStrip s0
      match hmsDisplay s with
      | some d => d
      | none =>
        match p_IMp s with
        | some m => fmt12 m
        | none =>
          match p_HM s with
          | some m => fmt12 m
          | none =>
            match p_Ip s with
            | some m => fmt12 m
            | none =>
              match p_IMp_ns s with
              | some m => fmt12 m
              | none => s

/-- The time sort key: `tmin` is `pd.Timestamp.min`, `tval` a parsed
time-of-day (on the fixed default date), `tmax` is `pd.Timestamp.max`. -/
inductive SortTime where
  | tmin : SortTime
  | tval : Nat → SortTime
  | tmax : SortTime
deriving DecidableEq, Repr

/-- Strict order on time sort keys (comparison of the timestamps). -/
def sortTimeLtb : SortTime → SortTime → Bool
  | SortTime.tmin, SortTime.tmin => false
  | SortTime.tmin, _ => true
  | SortTime.tval _, SortTime.tmin => false
  | SortTime.tval a, SortTime.tval b => a < b
  | SortTime.tval _, SortTime.tmax => true
  | SortTime.tmax, _ => false

/-- `get_sort_time` of `src/app.py`: display string to time sort key. -/
def get_sort_time (s : String) : SortTime :=
  if s = "TBA" then SortTime.tmax
  else
    match p_IMp s with
    | some m => SortTime.tval m
    | none => SortTime.tmin

/-- Bool test of whether `p` occurs at the start of `l`. -/
def startsSeq : List Char → List Char → Bool
  | [], _ => true
  | _ :: _, [] => false
  | a :: as, b :: bs => a = b && startsSeq as bs

/-- Bool test of whether `p` occurs contiguously anywhere in `l`
(Python `p in s` for strings). -/
def containsSeq (p : List Char) : List Char → Bool
  | [] => startsSeq p []
  | c :: rest => startsSeq p (c :: rest) || containsSeq p rest

/-- One header test of `find_required_columns`:
`variation in col.lower().strip()`. -/
def matchVar (v : String) (col : String) : Bool :=
  containsSeq v.data (pyStrip (pyLower col)).data

/-- Inner loop of `find_required_columns`: first variation with a matching
header wins and returns the first matching header in column order. -/
def findField (cols : List String) : List String → Option String
  | [] => none
  | v :: vs =>
    match cols.filter (fun c => matchVar v c) with
    | [] => findField cols vs
    | c :: _ => some c

/-- The `column_mapping` synonym table of `find_required_columns`. -/
def column_mapping : List (String × List String) :=
  [("date", ["date", "dates"]),
   ("time", ["time", "times"]),
   ("opponent", ["opponent", "opponents", "vs", "against"]),
   ("meet", ["meet", "meets", "event", "competition"]),
   ("location", ["location", "locations", "venue", "where", "place"]),
   ("distance", ["distance from macu", "distance", "miles", "distance (miles)"])]

/-- `find_required_columns` of `src/app.py`, as canonical-name/header pairs
in the fixed field order of `column_mapping`. -/
def find_required_columns (cols : List String) : List (String × String) :=
  column_mapping.filterMap
    (fun nv => (findField cols nv.2).map (fun c => (nv.1, c)))

/-- The synonym table with the plural synonyms removed (the refinement
candidate of the redundancy claim; compared against `column_mapping`). -/
def column_mapping_noplural : List (String × List String) :=
  [("date", ["date"]),
   ("time", ["time"]),
   ("opponent", ["opponent", "vs", "against"]),
   ("meet", ["meet", "event", "competition"]),
   ("location", ["location", "venue", "where", "place"]),
   ("distance", ["distance from macu", "distance", "miles", "distance (miles)"])]

/-- `find_required_columns` run over the plural-free synonym table. -/
def find_required_columns_noplural (cols : List String) : List (String × String) :=
  column_mapping_noplural.filterMap
    (fun nv => (findField cols nv.2).map (fun c => (nv.1, c)))

/-- One uploaded spreadsheet, already decoded by the file codec: base name,
header row, and cell rows (all cells text, `none` = NaN). -/
structure InFile where
  name : String
  header : List String
  rows : List (List (Option String))
deriving DecidableEq, Repr

/-- One row of the concatenated table, after per-file processing: the
`Display Date` copy, the `MACU Team` tag, the two sort keys, the parsed
time display, and the canonical optional cells. -/
structure CRow where
  displayDate : Option String
  team : String
  sort_date : Option Date
  parsed_time : String
  sort_time : SortTime
  opp : Option String
  meet : Option String
  loc : Option String
  dist : Option String
deriving DecidableEq, Repr

/-- Which canonical columns a file's resolved mapping contributed (after
`pd.concat`, a canonical column exists iff some surviving file had it). -/
structure ColFlags where
  opp : Bool
  meet : Bool
  loc : Bool
  dist : Bool
deriving DecidableEq, Repr

/-- Result of the per-file loop body: rows produced, skip with the
missing-date warning, or a caught exception (`st.error` path). -/
inductive ProcResult where
  | ok : List CRow → ColFlags → ProcResult
  | skippedNoDate : ProcResult
  | failed : ProcResult
deriving DecidableEq, Repr

/-- Lookup of a canonical field in the resolved column mapping. -/
def lookupCol (mapping : List (String × String)) (f : String) : Option String :=
  (mapping.find? (fun p => p.1 == f)).map (fun p => p.2)

/-- Cell of a row under a named column of the header. -/
def cellAt (header : List String) (row : List (Option String)) (col : String) :
    Option String :=
  match header.indexOf? col with
  | some i => row.getD i none
  | none => none

/-- Python `name.rsplit('.', 1)[0]`: strip the extension after the last dot. -/
def pyRsplitBase (name : String) : String :=
  if pyContains name '.' then
    ⟨((name.data.reverse.dropWhile (fun c => decide (c ≠ '.'))).drop 1).reverse⟩
  else name

/-- The loop body of `combine_and_sort_schedules` for one file: drop
fully-empty rows, resolve columns, skip when no date column was found, and
otherwise build the processed rows. Accessing `df['time']` when the mapping
has no `time` entry raises `KeyError`, which the surrounding
`except Exception` turns into a skip: that is the `failed` outcome. The
rename is modelled as mapping-based projection, which assumes each
canonical field resolves to a distinct header; a collision (two canonical
fields resolving to one header) would make the code's rename dict collapse
the column and the file fail, a case no theorem here exercises. -/
def processFile (f : InFile) : ProcResult :=
  let rows := f.rows.filter (fun r => ¬ r.all Option.isNone)
  let mapping := find_required_columns f.header
  match lookupCol mapping "date" with
  | none => ProcResult.skippedNoDate
  | some dateCol =>
    match lookupCol mapping "time" with
    | none => ProcResult.failed
    | some timeCol =>
      let team := pyRsplitBase f.name
      ProcResult.ok
        (rows.map (fun r =>
          let dcell := cellAt f.header r dateCol
          let pt := parse_time_string (cellAt f.header r timeCol)
          ⟨dcell, team, parse_for_sorting dcell, pt, get_sort_time pt,
            (lookupCol mapping "opponent").bind (fun c => cellAt f.header r c),
            (lookupCol mapping "meet").bind (fun c => cellAt f.header r c),
            (lookupCol mapping "location").bind (fun c => cellAt f.header r c),
            (lookupCol mapping "distance").bind (fun c => cellAt f.header r c)⟩))
        ⟨(lookupCol mapping "opponent").isSome, (lookupCol mapping "meet").isSome,
          (lookupCol mapping "location").isSome, (lookupCol mapping "distance").isSome⟩

/-- The two-part sort key of a processed row. -/
def rowKey (r : CRow) : Option Date × SortTime := (r.sort_date, r.sort_time)

/-- Lexicographic strict order on `(sort_date, sort_time)` keys. -/
def pairLtb (k1 k2 : Option Date × SortTime) : Bool :=
  sortDateLtb k1.1 k2.1 || (k1.1 = k2.1 && sortTimeLtb k1.2 k2.2)

/-- Lexicographic non-strict order on `(sort_date, sort_time)` keys. -/
def pairLeb (k1 k2 : Option Date × SortTime) : Bool :=
  pairLtb k1 k2 || k1 = k2

/-- Row comparison used by `sort_values(by=['sort_date', 'sort_time'])`. -/
def rowLe (r1 r2 : CRow) : Prop := pairLeb (rowKey r1) (rowKey r2) = true

instance : DecidableRel rowLe := fun r1 r2 => by unfold rowLe; infer_instance

/-- The sort of the concatenated table. `sort_values` on several keys uses
numpy's lexsort, a stable sort; any stable sort by the same total preorder
produces the same list, so it is modelled as insertion sort by `rowLe`. -/
def sortRows (rows : List CRow) : List CRow := List.insertionSort rowLe rows

/-- `format_final_date` of `src/app.py`: `str(row['Display Date'])` is the
raw cell (the string `"nan"` when the cell was NaN), kept verbatim for
range-form text and unparseable dates, re-rendered day-first otherwise.
The `sort_date` argument is the post-`fillna` key, so `none` is the
`pd.Timestamp.max` case that the `elif` excludes. -/
def format_final_date (displayDate : Option String) (sd : Option Date) : String :=
  let od := match displayDate with | none => "nan" | some s => s
  if pyContains od '-' && pyContains od '/' then od
  else
    match sd with
    | some d => fmtDMY d
    | none => od

/-- One row of the output table (all cells text). -/
structure FinalRow where
  date : String
  time : String
  team : String
  opponent : String
  meet : String
  location : String
  distance : String
deriving DecidableEq, Repr

/-- The final projection of `combine_and_sort_schedules`. For a canonical
column present somewhere, `combined_df.get` returns the column and `fillna`
supplies the per-cell default; for a column absent from every surviving
file, `combined_df.get` returns the scalar default string, and calling
`.fillna` on it raises `AttributeError` out of the whole function —
the `Except.error` case, checked in the dict's evaluation order. -/
def projectFinal (flags : ColFlags) (rows : List CRow) : Except String (List FinalRow) :=
  if flags.opp = false then Except.error "AttributeError"
  else if flags.meet = false then Except.error "AttributeError"
  else if flags.loc = false then Except.error "AttributeError"
  else if flags.dist = false then Except.error "AttributeError"
  else
    Except.ok (rows.map (fun r =>
      ⟨format_final_date r.displayDate r.sort_date, r.parsed_time, r.team,
        r.opp.getD "", r.meet.getD "", r.loc.getD "TBA", r.dist.getD "0"⟩))

/-- `combine_and_sort_schedules` of `src/app.py`: `Except.ok none` is the
`return None` outcome (no surviving file), `Except.error` an exception
raised to the caller while building the final frame. -/
def combine_and_sort_schedules (files : List InFile) :
    Except String (Option (List FinalRow)) :=
  let oks := (files.map processFile).filterMap (fun r =>
    match r with
    | ProcResult.ok crows flags => some (crows, flags)
    | _ => none)
  if oks.isEmpty then Except.ok none
  else
    let rows := (oks.map (fun p => p.1)).flatten
    let flags : ColFlags :=
      ⟨oks.any (fun p => p.2.opp), oks.any (fun p => p.2.meet),
        oks.any (fun p => p.2.loc), oks.any (fun p => p.2.dist)⟩
    match projectFinal flags (sortRows rows) with
    | Except.error e => Except.error e
    | Except.ok frows => Except.ok (some frows)

/-- Lexicographic comparison of character lists by code point, the order
pandas uses on a string-valued groupby key. -/
def charListLeb : List Char → List Char → Bool
  | [], _ => true
  | _ :: _, [] => false
  | x :: xs, y :: ys => if x = y then charListLeb xs ys else decide (x < y)

/-- Distinct values of a list in order of first occurrence
(`pandas.Series.unique`). -/
def firstOccur (l : List String) : List String :=
  l.foldl (fun acc d => if d ∈ acc then acc else acc ++ [d]) []

/-- `create_match_count_summary` of `src/app.py`, applied to the `Date`
column of the final table (`none` = the `df is None` case): group sizes by
exact date string — `groupby` sorts its keys ascending — then reorder by
each date's first occurrence in the table. -/
def create_match_count_summary (dates : Option (List String)) :
    Option (List (String × Nat)) :=
  match dates with
  | none => none
  | some ds =>
    if ds.isEmpty then none
    else
      let grouped := (List.insertionSort
        (fun a b => charListLeb a.data b.data = true) (firstOccur ds)).map
        (fun d => (d, ds.count d))
      let uniq := firstOccur ds
      some (List.insertionSort
        (fun p q => uniq.indexOf p.1 ≤ uniq.indexOf q.1) grouped)

/-- Summary as the specification words it: one pair per distinct display
date, in order of first occurrence in the sorted table, counting rows by
exact string equality. -/
def summaryByFirstOccurrence (ds : List String) : List (String × Nat) :=
  (firstOccur ds).map (fun d => (d, ds.count d))

/-- A file with a resolvable date column but no time-like header
(the failing input of the missing-time analysis). -/
def fileDateNoTime : InFile :=
  ⟨"team_a.xlsx", ["Date", "Opponent"], [[some "01/02/2025", some "X"]]⟩

/-- A file with date, time, opponent and meet columns but no location or
distance column anywhere. -/
def fileNoLocation : InFile :=
  ⟨"b.xlsx", ["Date", "Time", "Opponent", "Meet"],
    [[some "01/02/2025", some "17:00:00", some "X", some "M"]]⟩

/-- A file carrying every canonical column, with empty location and
distance cells. -/
def fileAllColumns : InFile :=
  ⟨"c.xlsx", ["Date", "Time", "Opponent", "Meet", "Location", "Distance"],
    [[some "01/02/2025", some "17:00:00", some "X", some "M", none, none]]⟩

theorem filter_orderedInsert_pos {α : Type} (r : α → α → Prop) [DecidableRel r]
    (p : α → Bool) (a : α) (l : List α) (hpa : p a = true)
    (hal : ∀ x, p x = true → r a x) :
    (l.orderedInsert r a).filter p = a :: l.filter p := by
  rw [List.orderedInsert_eq_take_drop r a l, List.filter_append]
  have h1 : (l.takeWhile fun b => ¬ r a b).filter p = [] := by
    apply List.filter_eq_nil_iff.mpr
    intro x hx
    have hq := List.mem_takeWhile_imp hx
    simp only [decide_eq_true_eq] at hq
    intro hpx
    exact hq (hal x hpx)
  have h2 : l.filter p = (l.dropWhile fun b => ¬ r a b).filter p := by
    conv_lhs => rw [← List.takeWhile_append_dropWhile (fun b => decide ¬ r a b) l]
    rw [List.filter_append, h1, List.nil_append]
  rw [h1, List.nil_append, List.filter_cons, h2]
  simp [hpa]

theorem filter_orderedInsert_neg {α : Type} (r : α → α → Prop) [DecidableRel r]
    (p : α → Bool) (a : α) (l : List α) (hpa : p a = false) :
    (l.orderedInsert r a).filter p = l.filter p := by
  rw [List.orderedInsert_eq_take_drop r a l, List.filter_append, List.filter_cons, hpa]
  simp only [Bool.false_eq_true, if_false]
  rw [← List.filter_append, List.takeWhile_append_dropWhile]

theorem filter_insertionSort_const {α : Type} (r : α → α → Prop) [DecidableRel r]
    (p : α → Bool) (hp : ∀ a b, p a = true → p b = true → r a b) :
    ∀ l : List α, (List.insertionSort r l).filter p = l.filter p
  | [] => rfl
  | a :: l => by
    show (List.orderedInsert r a (List.insertionSort r l)).filter p = _
    cases hpa : p a with
    | true =>
      rw [filter_orderedInsert_pos r p a _ hpa (fun x hx => hp a x hpa hx),
        filter_insertionSort_const r p hp l, List.filter_cons, hpa]
      simp
    | false =>
      rw [filter_orderedInsert_neg r p a _ hpa,
        filter_insertionSort_const r p hp l, List.filter_cons, hpa]
      simp

/-- C1: the claim says a file whose resolved mapping has a date column is
never skipped even when the time column is missing. The code contradicts
this and its own spec: `fileDateNoTime` resolves `date` (and `opponent`)
but has no `time` header, so `df['time']` raises `KeyError`, the per-file
handler catches it, and the file is skipped; with it as the only upload the
merge returns the no-data outcome instead of its rows. -/
theorem c1_missing_time_file_is_skipped :
    lookupCol (find_required_columns fileDateNoTime.header) "date" = some "Date" ∧
    lookupCol (find_required_columns fileDateNoTime.header) "time" = none ∧
    processFile fileDateNoTime = ProcResult.failed ∧
    combine_and_sort_schedules [fileDateNoTime] = Except.ok none :=
  ⟨rfl, rfl, rfl, rfl⟩

/-- C2: per-cell defaults do work when the canonical column exists
somewhere (`Location` ↦ "TBA", `Distance` ↦ "0"), but when the location
column was found in no input file at all, `combined_df.get('location', '')`
returns a plain string and `.fillna` on it raises `AttributeError` out of
the function, contradicting the claim's "found in no input file" part. -/
theorem c2_location_distance_defaults :
    combine_and_sort_schedules [fileAllColumns] =
      Except.ok (some [⟨"01/02/2025", "05:00 PM", "c", "X", "M", "TBA", "0"⟩]) ∧
    combine_and_sort_schedules [fileNoLocation] = Except.error "AttributeError" :=
  ⟨rfl, rfl⟩

/-- C3: the sort of the concatenated table is stable — for any key value,
the rows carrying exactly that `(sort_date, sort_time)` key appear in the
sorted output in the same relative order as in the concatenated input. -/
theorem c3_sort_is_stable (rows : List CRow) (k : Option Date × SortTime) :
    (sortRows rows).filter (fun r => decide (rowKey r = k)) =
      rows.filter (fun r => decide (rowKey r = k)) := by
  apply filter_insertionSort_const
  intro a b ha hb
  simp only [decide_eq_true_eq] at ha hb
  unfold rowLe pairLeb
  simp [ha, hb]

theorem startsSeq_drop_last (v : List Char) (x : Char) (l : List Char)
    (h : startsSeq (v ++ [x]) l = true) : startsSeq v l = true := by
  induction v generalizing l with
  | nil => rfl
  | cons a as ih =>
    cases l with
    | nil => simp [startsSeq] at h
    | cons b bs =>
      simp only [List.cons_append, startsSeq, Bool.and_eq_true] at h
      simp only [startsSeq, Bool.and_eq_true]
      exact ⟨h.1, ih bs h.2⟩

theorem containsSeq_drop_last (v : List Char) (x : Char) (l : List Char)
    (h : containsSeq (v ++ [x]) l = true) : containsSeq v l = true := by
  induction l with
  | nil =>
    exfalso
    cases v with
    | nil => simp [containsSeq, startsSeq] at h
    | cons a as => simp [containsSeq, startsSeq] at h
  | cons c rest ih =>
    simp only [containsSeq, Bool.or_eq_true] at h
    simp only [containsSeq, Bool.or_eq_true]
    cases h with
    | inl h => exact Or.inl (startsSeq_drop_last v x _ h)
    | inr h => exact Or.inr (ih h)

theorem matchVar_plural (v vp : String) (h : vp.data = v.data ++ [Char.ofNat 115])
    (c : String) (hm : matchVar vp c = true) : matchVar v c = true := by
  unfold matchVar at hm
  rw [h] at hm
  exact containsSeq_drop_last _ _ _ hm

theorem findField_cons_eq (cols : List String) (v : String) (vs : List String) :
    findField cols (v :: vs) =
      match cols.filter (fun c => matchVar v c) with
      | [] => findField cols vs
      | c :: _ => some c := rfl

theorem findField_drop_second (cols : List String) (v vp : String) (rest : List String)
    (hmono : ∀ c, matchVar vp c = true → matchVar v c = true) :
    findField cols (v :: vp :: rest) = findField cols (v :: rest) := by
  cases hf : cols.filter (fun c => matchVar v c) with
  | cons c cs => rw [findField_cons_eq cols v (vp :: rest), findField_cons_eq cols v rest, hf]
  | nil =>
    have hf2 : cols.filter (fun c => matchVar vp c) = [] := by
      apply List.filter_eq_nil_iff.mpr
      intro c hc hm
      exact (List.filter_eq_nil_iff.mp hf) c hc (hmono c hm)
    rw [findField_cons_eq cols v (vp :: rest), findField_cons_eq cols v rest, hf,
      findField_cons_eq cols vp rest, hf2]

/-- C10: the plural synonyms are redundant — the resolver returns the same
mapping with and without "dates", "times", "opponents", "meets",
"locations", because each plural contains its singular as a substring and
the singular is tried first. -/
theorem c10_plural_synonyms_redundant (cols : List String) :
    find_required_columns cols = find_required_columns_noplural cols := by
  have hdate := findField_drop_second cols "date" "dates" []
    (matchVar_plural "date" "dates" (by decide))
  have htime := findField_drop_second cols "time" "times" []
    (matchVar_plural "time" "times" (by decide))
  have hopp := findField_drop_second cols "opponent" "opponents" ["vs", "against"]
    (matchVar_plural "opponent" "opponents" (by decide))
  have hmeet := findField_drop_second cols "meet" "meets" ["event", "competition"]
    (matchVar_plural "meet" "meets" (by decide))
  have hloc := findField_drop_second cols "location" "locations"
    ["venue", "where", "place"]
    (matchVar_plural "location" "locations" (by decide))
  simp only [find_required_columns, find_required_columns_noplural,
    column_mapping, column_mapping_noplural, List.filterMap_cons, List.filterMap_nil]
  rw [hdate, htime, hopp, hmeet, hloc]

theorem string_eta (s : String) : (⟨s.data⟩ : String) = s := by
  cases s
  rfl

theorem pyStrip_data (s : String) :
    (pyStrip s).data =
      ((s.data.dropWhile Char.isWhitespace).reverse.dropWhile Char.isWhitespace).reverse :=
  rfl

theorem pyUpper_data (s : String) : (pyUpper s).data = s.data.map Char.toUpper := rfl

theorem strip_decomp (s : String) :
    ∃ pre suf, s.data = pre ++ (pyStrip s).data ++ suf ∧
      (∀ c ∈ pre, c.isWhitespace = true) ∧ (∀ c ∈ suf, c.isWhitespace = true) := by
  refine ⟨s.data.takeWhile Char.isWhitespace,
    ((s.data.dropWhile Char.isWhitespace).reverse.takeWhile Char.isWhitespace).reverse,
    ?_, ?_, ?_⟩
  · rw [pyStrip_data]
    conv_lhs => rw [← List.takeWhile_append_dropWhile Char.isWhitespace s.data]
    rw [List.append_assoc]
    congr 1
    conv_lhs => rw [← List.reverse_reverse (s.data.dropWhile Char.isWhitespace)]
    conv_lhs => rw [← List.takeWhile_append_dropWhile Char.isWhitespace
      (s.data.dropWhile Char.isWhitespace).reverse]
    rw [List.reverse_append]
  · intro c hc
    exact List.mem_takeWhile_imp hc
  · intro c hc
    exact List.mem_takeWhile_imp (List.mem_reverse.mp hc)

theorem mem_of_mem_strip {s : String} {c : Char} (h : c ∈ (pyStrip s).data) :
    c ∈ s.data := by
  obtain ⟨pre, suf, he, _, _⟩ := strip_decomp s
  rw [he]
  simp [h]

theorem mem_strip_of_mem {s : String} {c : Char} (hc : c.isWhitespace = false)
    (h : c ∈ s.data) : c ∈ (pyStrip s).data := by
  obtain ⟨pre, suf, he, hp, hs⟩ := strip_decomp s
  rw [he] at h
  simp only [List.mem_append] at h
  rcases h with (h | h) | h
  · rw [hp c h] at hc
    exact absurd hc (by simp)
  · exact h
  · rw [hs c h] at hc
    exact absurd hc (by simp)

theorem count_strip {s : String} {c : Char} (hc : c.isWhitespace = false) :
    (pyStrip s).data.count c = s.data.count c := by
  obtain ⟨pre, suf, he, hp, hs⟩ := strip_decomp s
  rw [he, List.count_append, List.count_append]
  have h1 : pre.count c = 0 := by
    apply List.count_eq_zero.mpr
    intro hm
    rw [hp c hm] at hc
    exact absurd hc (by simp)
  have h2 : suf.count c = 0 := by
    apply List.count_eq_zero.mpr
    intro hm
    rw [hs c hm] at hc
    exact absurd hc (by simp)
  omega

theorem pyUpper_ne_of_mem {s t : String} {c : Char} (hc : c ∈ s.data)
    (hn : ¬ c.toUpper ∈ t.data) : ¬ pyUpper s = t := by
  intro he
  apply hn
  have hd : (pyUpper s).data = t.data := congrArg String.data he
  rw [← hd, pyUpper_data]
  exact List.mem_map_of_mem Char.toUpper hc

theorem dropWhile_of_all_neg {p : Char → Bool} :
    ∀ l : List Char, (∀ c ∈ l, p c = false) → l.dropWhile p = l
  | [], _ => rfl
  | x :: xs, h => by
    rw [List.dropWhile_cons, h x (List.mem_cons_self x xs)]
    simp

theorem pyStrip_eq_self {s : String} (h : ∀ c ∈ s.data, c.isWhitespace = false) :
    pyStrip s = s := by
  unfold pyStrip
  rw [dropWhile_of_all_neg s.data h,
    dropWhile_of_all_neg s.data.reverse (fun c hc => h c (List.mem_reverse.mp hc)),
    List.reverse_reverse]

theorem eq_empty_of_pyUpper_empty {s : String} (h : pyUpper s = "") : s = "" := by
  have hd : s.data.map Char.toUpper = [] := congrArg String.data h
  have hnil : s.data = [] := by
    cases hm : s.data with
    | nil => rfl
    | cons a l => rw [hm] at hd; simp at hd
  rw [← string_eta s, hnil]

/-- C4: a raw date cell containing both a hyphen and a slash commits to the
range branch — the text before the first hyphen joined by a slash to the
text after the last slash, parsed strictly month-first, with failure giving
the unparseable sentinel and no fallback (first conjunct); the formatter
emits such a cell verbatim whatever the sort key is (second conjunct);
"7/12-7/14/2025" sorts as July 12, 2025 (third); and "25/12-26/12/2025"
is a concrete no-fallback case: its recombination fails month-first so the
result is the sentinel, even though the day-first parser would accept it
(fourth and fifth conjuncts). -/
theorem c4_range_branch (s : String) (sd : Option Date)
    (h1 : pyContains s '-' = true) (h2 : pyContains s '/' = true) :
    parse_for_sorting (some s) = parse_mdy (rangeRecombined (pyStrip s)) ∧
    format_final_date (some s) sd = s ∧
    parse_for_sorting (some "7/12-7/14/2025") = some ⟨2025, 7, 12⟩ ∧
    parse_for_sorting (some "25/12-26/12/2025") = none ∧
    genericDayfirst "25/12/2025" = some ⟨2025, 12, 25⟩ := by
  have hm1 : ('-' : Char) ∈ s.data := of_decide_eq_true h1
  have hm2 : ('/' : Char) ∈ s.data := of_decide_eq_true h2
  have hs1 : ('-' : Char) ∈ (pyStrip s).data := mem_strip_of_mem (by decide) hm1
  have hs2 : ('/' : Char) ∈ (pyStrip s).data := mem_strip_of_mem (by decide) hm2
  refine ⟨?_, ?_, rfl, rfl, rfl⟩
  · show parse_core (pyStrip s) = _
    have hno : ¬ (pyUpper (pyStrip s) = "TBA" ∨ pyUpper (pyStrip s) = "NAN") := by
      rintro (h | h)
      · exact pyUpper_ne_of_mem hs2 (by decide) h
      · exact pyUpper_ne_of_mem hs2 (by decide) h
    unfold parse_core
    rw [if_neg hno, if_pos ⟨decide_eq_true hs1, decide_eq_true hs2⟩]
  · unfold format_final_date
    simp only [h1, h2, Bool.and_self, if_pos]

theorem c4_range_branch_witness :
    parse_for_sorting (some "7/12-7/14/2025") =
      parse_mdy (rangeRecombined (pyStrip "7/12-7/14/2025")) ∧
    format_final_date (some "7/12-7/14/2025") (some ⟨2025, 7, 12⟩) =
      "7/12-7/14/2025" ∧
    parse_for_sorting (some "7/12-7/14/2025") = some ⟨2025, 7, 12⟩ ∧
    parse_for_sorting (some "25/12-26/12/2025") = none ∧
    genericDayfirst "25/12/2025" = some ⟨2025, 12, 25⟩ :=
  c4_range_branch "7/12-7/14/2025" (some ⟨2025, 7, 12⟩) (by decide) (by decide)

/-- C8: a raw date cell with exactly two hyphens and no slash takes the ISO
branch — only the text before the first space is parsed, as year-month-day
(first conjunct); "2025-09-05 10:00:00" parses as September 5, 2025
(second) and is re-rendered day-first as "05/09/2025" by the formatter
(third). -/
theorem c8_iso_branch (s : String)
    (h1 : pyContains s '-' = true) (h2 : pyContains s '/' = false)
    (h3 : pyCount s '-' = 2) :
    parse_for_sorting (some s) = parse_ymd (firstSpaceField (pyStrip s)) ∧
    parse_for_sorting (some "2025-09-05 10:00:00") = some ⟨2025, 9, 5⟩ ∧
    format_final_date (some "2025-09-05 10:00:00")
      (parse_for_sorting (some "2025-09-05 10:00:00")) = "05/09/2025" := by
  have hm1 : ('-' : Char) ∈ s.data := of_decide_eq_true h1
  have hs1 : ('-' : Char) ∈ (pyStrip s).data := mem_strip_of_mem (by decide) hm1
  have hns : ('/' : Char) ∉ (pyStrip s).data := by
    intro hm
    have ht : decide (('/' : Char) ∈ s.data) = true :=
      decide_eq_true (mem_of_mem_strip hm)
    have hf : decide (('/' : Char) ∈ s.data) = false := h2
    rw [ht] at hf
    exact absurd hf (by simp)
  have hcount : pyCount (pyStrip s) '-' = 2 := by
    show (pyStrip s).data.count '-' = 2
    rw [count_strip (by decide)]
    exact h3
  refine ⟨?_, rfl, rfl⟩
  show parse_core (pyStrip s) = _
  have hno : ¬ (pyUpper (pyStrip s) = "TBA" ∨ pyUpper (pyStrip s) = "NAN") := by
    rintro (h | h)
    · exact pyUpper_ne_of_mem hs1 (by decide) h
    · exact pyUpper_ne_of_mem hs1 (by decide) h
  have hb1 : ¬ (pyContains (pyStrip s) '-' = true ∧ pyContains (pyStrip s) '/' = true) := by
    rintro ⟨-, hc⟩
    exact hns (of_decide_eq_true hc)
  unfold parse_core
  rw [if_neg hno, if_neg hb1, if_pos ⟨decide_eq_true hs1, hcount⟩]

theorem c8_iso_branch_witness :
    parse_for_sorting (some "2025-09-05 10:00:00") =
      parse_ymd (firstSpaceField (pyStrip "2025-09-05 10:00:00")) ∧
    parse_for_sorting (some "2025-09-05 10:00:00") = some ⟨2025, 9, 5⟩ ∧
    format_final_date (some "2025-09-05 10:00:00")
      (parse_for_sorting (some "2025-09-05 10:00:00")) = "05/09/2025" :=
  c8_iso_branch "2025-09-05 10:00:00" (by decide) (by decide) (by decide)

/-- C6: the Date Normalizer is total by construction (it is a function into
`Option Date`, every raw cell yielding a parsed value or the sentinel
`none`); a missing cell and any cell whose trimmed upper-case text is
"TBA", "NAN" or empty yield that same sentinel; and after the
`fillna(pd.Timestamp.max)` step the sentinel key sorts strictly after every
successfully parsed date. -/
theorem c6_unparseable_sentinel (s : String)
    (hs : pyUpper (pyStrip s) = "TBA" ∨ pyUpper (pyStrip s) = "NAN" ∨
      pyUpper (pyStrip s) = "")
    (t : String) (d : Date) (_hd : parse_for_sorting (some t) = some d) :
    parse_for_sorting (some s) = none ∧ parse_for_sorting none = none ∧
    sortDateLtb (some d) none = true ∧ sortDateLtb none (some d) = false := by
  refine ⟨?_, rfl, rfl, rfl⟩
  show parse_core (pyStrip s) = none
  rcases hs with h | h | h
  · unfold parse_core
    rw [if_pos (Or.inl h)]
  · unfold parse_core
    rw [if_pos (Or.inr h)]
  · rw [eq_empty_of_pyUpper_empty h]
    rfl

theorem c6_unparseable_sentinel_witness :
    parse_for_sorting (some " Tba ") = none ∧ parse_for_sorting none = none ∧
    sortDateLtb (some ⟨2025, 9, 5⟩) none = true ∧
    sortDateLtb none (some ⟨2025, 9, 5⟩) = false :=
  c6_unparseable_sentinel " Tba " (Or.inl (by decide)) "05/09/25" ⟨2025, 9, 5⟩
    (by decide)

/-- C5: the two time sentinels are asymmetric. A cell whose display is
"TBA" (missing, empty, "TBA" or "NAN" input) receives the `Timestamp.max`
key, strictly greater than the key of every parseable display time, while
a non-empty time text on which the strict `HH:MM:SS` branch and all four
generic formats fail is returned verbatim and receives the `Timestamp.min`
key, strictly less than every parseable time: malformed time text sorts
first, unknown time sorts last. -/
theorem c5_time_sentinel_asymmetry (t : String) (mt : Nat) (ht : p_IMp t = some mt)
    (s : String)
    (hs1 : ¬ (pyUpper (pyStrip s) = "TBA" ∨ pyUpper (pyStrip s) = "NAN" ∨
      pyUpper (pyStrip s) = ""))
    (hs2 : hmsDisplay (pyStrip s) = none) (hs3 : p_IMp (pyStrip s) = none)
    (hs4 : p_HM (pyStrip s) = none) (hs5 : p_Ip (pyStrip s) = none)
    (hs6 : p_IMp_ns (pyStrip s) = none)
    (cell : Option String) (hc : parse_time_string cell = "TBA") :
    parse_time_string (some s) = pyStrip s ∧
    sortTimeLtb (get_sort_time (parse_time_string (some s))) (get_sort_time t) = true ∧
    sortTimeLtb (get_sort_time t) (get_sort_time (parse_time_string cell)) = true := by
  have hverb : parse_time_string (some s) = pyStrip s := by
    show (if pyUpper (pyStrip s) = "TBA" ∨ pyUpper (pyStrip s) = "NAN" ∨
        pyUpper (pyStrip s) = "" then "TBA" else _) = pyStrip s
    rw [if_neg hs1, hs2, hs3, hs4, hs5, hs6]
  have htne : t ≠ "TBA" := by
    intro he
    rw [he, show p_IMp "TBA" = none from rfl] at ht
    exact Option.noConfusion ht
  have hst : get_sort_time t = SortTime.tval mt := by
    unfold get_sort_time
    rw [if_neg htne, ht]
  have hsne : pyStrip s ≠ "TBA" := by
    intro he
    exact hs1 (Or.inl (by rw [he]; decide))
  have hsort : get_sort_time (pyStrip s) = SortTime.tmin := by
    unfold get_sort_time
    rw [if_neg hsne, hs3]
  refine ⟨hverb, ?_, ?_⟩
  · rw [hverb, hsort, hst]
    rfl
  · rw [hc, hst]
    rfl

theorem c5_time_sentinel_asymmetry_witness :
    parse_time_string (some "noon") = pyStrip "noon" ∧
    sortTimeLtb (get_sort_time (parse_time_string (some "noon")))
      (get_sort_time "05:00 PM") = true ∧
    sortTimeLtb (get_sort_time "05:00 PM")
      (get_sort_time (parse_time_string (some "tba"))) = true :=
  c5_time_sentinel_asymmetry "05:00 PM" 1020 (by decide) "noon" (by decide)
    (by decide) (by decide) (by decide) (by decide) (by decide) (some "tba")
    (by decide)

theorem splitChar_ne_nil (c : Char) : ∀ l : List Char, splitChar c l ≠ []
  | [] => by simp [splitChar]
  | x :: xs => by
    simp only [splitChar]
    cases h : splitChar c xs with
    | nil => simp
    | cons y ys =>
      by_cases hx : x = c
      · simp [hx]
      · simp [hx]

theorem splitChar_of_not_mem {c : Char} : ∀ {l : List Char}, c ∉ l → splitChar c l = [l]
  | [], _ => rfl
  | x :: xs, h => by
    have hx : ¬ x = c := fun he => h (he ▸ List.mem_cons_self x xs)
    have ih := splitChar_of_not_mem (fun hm => h (List.mem_cons_of_mem x hm))
    simp only [splitChar, ih]
    rw [if_neg hx]

theorem splitChar_append (c : Char) (l1 l2 : List Char) (h : c ∉ l1) :
    splitChar c (l1 ++ c :: l2) = l1 :: splitChar c l2 := by
  induction l1 with
  | nil =>
    show splitChar c (c :: l2) = [] :: splitChar c l2
    simp only [splitChar]
    cases hs : splitChar c l2 with
    | nil => exact absurd hs (splitChar_ne_nil c l2)
    | cons y ys => simp
  | cons x xs ih =>
    have hx : ¬ x = c := fun he => h (he ▸ List.mem_cons_self x xs)
    have ih2 := ih (fun hm => h (List.mem_cons_of_mem x hm))
    show splitChar c (x :: (xs ++ c :: l2)) = (x :: xs) :: splitChar c l2
    simp only [splitChar, ih2]
    rw [if_neg hx]

theorem pySplit_three (as bs cs : String) (ha : ('/' : Char) ∉ as.data)
    (hb : ('/' : Char) ∉ bs.data) (hc : ('/' : Char) ∉ cs.data) :
    pySplit (as ++ "/" ++ bs ++ "/" ++ cs) '/' = [as, bs, cs] := by
  have hd : (as ++ "/" ++ bs ++ "/" ++ cs).data =
      as.data ++ '/' :: (bs.data ++ '/' :: cs.data) := by
    simp [String.data_append]
  unfold pySplit
  rw [hd, splitChar_append '/' as.data _ ha, splitChar_append '/' bs.data _ hb,
    splitChar_of_not_mem hc]
  simp [string_eta]

theorem pyToNat_elim {s : String} {n : Nat} (h : pyToNat s = some n) :
    s.data ≠ [] ∧ s.data.all Char.isDigit = true := by
  unfold pyToNat at h
  split at h
  · next hcond => exact hcond
  · exact absurd h (by simp)

theorem digit_not_ws {c : Char} (h : c.isDigit = true) : c.isWhitespace = false := by
  cases hw : c.isWhitespace
  · rfl
  · exfalso
    have hd : ('0' : Char) ≤ c ∧ c ≤ ('9' : Char) := by
      simpa [Char.isDigit] using h
    have hws : ((c = ' ' ∨ c = '\t') ∨ c = '\r') ∨ c = '\n' := by
      simpa [Char.isWhitespace] using hw
    rcases hws with ((h1 | h1) | h1) | h1 <;>
      (subst h1; exact absurd hd.1 (by decide))

theorem mem_digit_of_all {l : List Char} (h : l.all Char.isDigit = true) :
    ∀ c ∈ l, c.isDigit = true := fun c hc => List.all_eq_true.mp h c hc

theorem parse_slash_dayfirst (as bs cs : String) (a b c : Nat)
    (ha : pyToNat as = some a) (hb : pyToNat bs = some b) (hc : pyToNat cs = some c)
    (la : as.data.length ≤ 2) (lb : bs.data.length ≤ 2) (lc : cs.data.length = 4)
    (hv : validDate c b a = true) (hbnd : inTimestampBounds ⟨c, b, a⟩ = true) :
    parse_for_sorting (some (as ++ "/" ++ bs ++ "/" ++ cs)) = some ⟨c, b, a⟩ := by
  obtain ⟨-, had⟩ := pyToNat_elim ha
  obtain ⟨-, hbd⟩ := pyToNat_elim hb
  obtain ⟨-, hcd⟩ := pyToNat_elim hc
  have hdata : (as ++ "/" ++ bs ++ "/" ++ cs).data =
      as.data ++ '/' :: (bs.data ++ '/' :: cs.data) := by
    simp [String.data_append]
  have hmem : ∀ ch ∈ (as ++ "/" ++ bs ++ "/" ++ cs).data,
      ch.isDigit = true ∨ ch = '/' := by
    rw [hdata]
    intro ch hch
    simp only [List.mem_append, List.mem_cons] at hch
    rcases hch with h | h | h | h | h
    · exact Or.inl (mem_digit_of_all had ch h)
    · exact Or.inr h
    · exact Or.inl (mem_digit_of_all hbd ch h)
    · exact Or.inr h
    · exact Or.inl (mem_digit_of_all hcd ch h)
  have hnws : ∀ ch ∈ (as ++ "/" ++ bs ++ "/" ++ cs).data, ch.isWhitespace = false := by
    intro ch hch
    rcases hmem ch hch with h | h
    · exact digit_not_ws h
    · subst h
      decide
  have hstrip := pyStrip_eq_self hnws
  have hslash : ('/' : Char) ∈ (as ++ "/" ++ bs ++ "/" ++ cs).data := by
    rw [hdata]
    simp
  have hnh : ('-' : Char) ∉ (as ++ "/" ++ bs ++ "/" ++ cs).data := by
    intro hm
    rcases hmem _ hm with h | h
    · exact absurd h (by decide)
    · exact absurd h (by decide)
  have hno : ¬ (pyUpper (as ++ "/" ++ bs ++ "/" ++ cs) = "TBA" ∨
      pyUpper (as ++ "/" ++ bs ++ "/" ++ cs) = "NAN") := by
    rintro (h | h)
    · exact pyUpper_ne_of_mem hslash (by decide) h
    · exact pyUpper_ne_of_mem hslash (by decide) h
  have hsplit := pySplit_three as bs cs
    (fun hm => absurd (mem_digit_of_all had _ hm) (by decide))
    (fun hm => absurd (mem_digit_of_all hbd _ hm) (by decide))
    (fun hm => absurd (mem_digit_of_all hcd _ hm) (by decide))
  show parse_core (pyStrip (as ++ "/" ++ bs ++ "/" ++ cs)) = some ⟨c, b, a⟩
  rw [hstrip]
  unfold parse_core
  rw [if_neg hno, if_neg (fun hand => hnh (of_decide_eq_true hand.1)),
    if_neg (fun hand => hnh (of_decide_eq_true hand.1))]
  simp only [genericDayfirst, hsplit, ha, hb, hc]
  rw [if_pos ⟨la, lb, by omega⟩, lc]
  rw [if_neg (by omega : ¬ (4 : Nat) ≤ 2)]
  unfold dayfirstPick
  rw [if_pos hv]
  simp only [boundsFilter]
  rw [if_pos hbnd]

theorem dateLtb_iff (d1 d2 : Date) : dateLtb d1 d2 = true ↔
    (d1.year < d2.year ∨ (d1.year = d2.year ∧
      (d1.month < d2.month ∨ (d1.month = d2.month ∧ d1.day < d2.day)))) := by
  unfold dateLtb
  split_ifs with h1 h2 <;> simp <;> omega

/-- C7, counterexample to the claim as stated: "01/01/5000" is a valid
day-first slash date (January 1, 5000), but the program's `Timestamp`
conversion raises `OutOfBoundsDatetime`, caught into `NaT`, so it does not
parse day-first and its order key is the maximal sentinel; two such dates
tie, so their order keys do not agree with the strict calendar order. -/
theorem c7_out_of_bounds_counterexample :
    validDate 5000 1 1 = true ∧ validDate 5000 1 2 = true ∧
    parse_for_sorting (some "01/01/5000") = none ∧
    parse_for_sorting (some "02/01/5000") = none ∧
    sortDateLtb (parse_for_sorting (some "01/01/5000"))
      (parse_for_sorting (some "02/01/5000")) = false :=
  ⟨rfl, rfl, rfl, rfl, rfl⟩

/-- C7 as amended: a slash date reaching the default branch is parsed
day-first — any three slash-separated digit fields forming a valid
day/month/year calendar date (four-digit year here) **within the pandas
`Timestamp` range** parse to exactly that date (first conjunct), and order
keys of two such dates compare exactly as the calendar does (second
conjunct); the ambiguous "05/09/25" yields day 5, month 9, year 2025
(third), and "01/02/2025" orders before "15/01/2026" (fourth). Outside the
`Timestamp` range the conversion raises and the key degrades to the
unparseable sentinel, so the claim's universal ordering statement holds
only on the bounded domain (see `c7_out_of_bounds_counterexample`). -/
theorem c7_dayfirst_slash_dates (as bs cs : String) (a b c : Nat)
    (ha : pyToNat as = some a) (hb : pyToNat bs = some b) (hc : pyToNat cs = some c)
    (la : as.data.length ≤ 2) (lb : bs.data.length ≤ 2) (lc : cs.data.length = 4)
    (hv : validDate c b a = true) (hbnd : inTimestampBounds ⟨c, b, a⟩ = true)
    (as2 bs2 cs2 : String) (a2 b2 c2 : Nat)
    (ha2 : pyToNat as2 = some a2) (hb2 : pyToNat bs2 = some b2)
    (hc2 : pyToNat cs2 = some c2)
    (la2 : as2.data.length ≤ 2) (lb2 : bs2.data.length ≤ 2)
    (lc2 : cs2.data.length = 4) (hv2 : validDate c2 b2 a2 = true)
    (hbnd2 : inTimestampBounds ⟨c2, b2, a2⟩ = true) :
    parse_for_sorting (some (as ++ "/" ++ bs ++ "/" ++ cs)) = some ⟨c, b, a⟩ ∧
    (sortDateLtb (parse_for_sorting (some (as ++ "/" ++ bs ++ "/" ++ cs)))
        (parse_for_sorting (some (as2 ++ "/" ++ bs2 ++ "/" ++ cs2))) = true ↔
      (c < c2 ∨ (c = c2 ∧ (b < b2 ∨ (b = b2 ∧ a < a2))))) ∧
    parse_for_sorting (some "05/09/25") = some ⟨2025, 9, 5⟩ ∧
    sortDateLtb (parse_for_sorting (some "01/02/2025"))
      (parse_for_sorting (some "15/01/2026")) = true := by
  have h1 := parse_slash_dayfirst as bs cs a b c ha hb hc la lb lc hv hbnd
  have h2 := parse_slash_dayfirst as2 bs2 cs2 a2 b2 c2 ha2 hb2 hc2 la2 lb2 lc2
    hv2 hbnd2
  refine ⟨h1, ?_, by decide, by decide⟩
  rw [h1, h2]
  show dateLtb ⟨c, b, a⟩ ⟨c2, b2, a2⟩ = true ↔ _
  exact dateLtb_iff ⟨c, b, a⟩ ⟨c2, b2, a2⟩

theorem c7_dayfirst_slash_dates_witness :
    parse_for_sorting (some ("01" ++ "/" ++ "02" ++ "/" ++ "2025")) =
      some ⟨2025, 2, 1⟩ ∧
    (sortDateLtb (parse_for_sorting (some ("01" ++ "/" ++ "02" ++ "/" ++ "2025")))
        (parse_for_sorting (some ("15" ++ "/" ++ "01" ++ "/" ++ "2026"))) = true ↔
      (2025 < 2026 ∨ (2025 = 2026 ∧ (2 < 1 ∨ (2 = 1 ∧ 1 < 15))))) ∧
    parse_for_sorting (some "05/09/25") = some ⟨2025, 9, 5⟩ ∧
    sortDateLtb (parse_for_sorting (some "01/02/2025"))
      (parse_for_sorting (some "15/01/2026")) = true :=
  c7_dayfirst_slash_dates "01" "02" "2025" 1 2 2025 (by decide) (by decide)
    (by decide) (by decide) (by decide) (by decide) (by decide) (by decide)
    "15" "01" "2026" 15 1 2026 (by decide) (by decide) (by decide) (by decide)
    (by decide) (by decide) (by decide) (by decide)

theorem mem_firstOccur_foldl (l : List String) :
    ∀ (acc : List String) (x : String),
      (x ∈ l.foldl (fun acc d => if d ∈ acc then acc else acc ++ [d]) acc) ↔
        x ∈ acc ∨ x ∈ l := by
  induction l with
  | nil =>
    intro acc x
    simp
  | cons d rest ih =>
    intro acc x
    rw [List.foldl_cons, ih]
    by_cases hd : d ∈ acc
    · simp only [if_pos hd, List.mem_cons]
      constructor
      · rintro (h | h)
        · exact Or.inl h
        · exact Or.inr (Or.inr h)
      · rintro (h | h | h)
        · exact Or.inl h
        · exact Or.inl (h ▸ hd)
        · exact Or.inr h
    · simp only [if_neg hd, List.mem_append, List.mem_singleton, List.mem_cons]
      tauto

theorem nodup_firstOccur_foldl (l : List String) :
    ∀ acc : List String, acc.Nodup →
      (l.foldl (fun acc d => if d ∈ acc then acc else acc ++ [d]) acc).Nodup := by
  induction l with
  | nil =>
    intro acc h
    exact h
  | cons d rest ih =>
    intro acc h
    rw [List.foldl_cons]
    apply ih
    by_cases hd : d ∈ acc
    · rwa [if_pos hd]
    · rw [if_neg hd, List.nodup_append]
      exact ⟨h, List.nodup_singleton d,
        fun x hx hxd => hd (List.mem_singleton.mp hxd ▸ hx)⟩

theorem firstOccur_nodup (l : List String) : (firstOccur l).Nodup :=
  nodup_firstOccur_foldl l [] List.nodup_nil

theorem pairwise_indexOf_lt : ∀ (U : List String), U.Nodup →
    U.Pairwise (fun a b => U.indexOf a < U.indexOf b)
  | [], _ => List.Pairwise.nil
  | u :: U, h => by
    obtain ⟨hu, hU⟩ := List.nodup_cons.mp h
    constructor
    · intro b hb
      have hub : u ≠ b := fun he => hu (he ▸ hb)
      rw [List.indexOf_cons_self, List.indexOf_cons_ne U hub]
      exact Nat.succ_pos _
    · apply (pairwise_indexOf_lt U hU).imp_of_mem
      intro a b ha hb hr
      have hua : u ≠ a := fun he => hu (he ▸ ha)
      have hub : u ≠ b := fun he => hu (he ▸ hb)
      rw [List.indexOf_cons_ne U hua, List.indexOf_cons_ne U hub]
      omega

theorem sort_by_first_idx (U : List String) (hU : U.Nodup)
    (f : String → String × Nat) (hf : ∀ d, (f d).1 = d)
    (g : List (String × Nat)) (hg : List.Perm g (U.map f)) :
    List.insertionSort (fun p q => U.indexOf p.1 ≤ U.indexOf q.1) g = U.map f := by
  haveI : IsTotal (String × Nat) (fun p q => U.indexOf p.1 ≤ U.indexOf q.1) :=
    ⟨fun p q => Nat.le_total _ _⟩
  haveI : IsTrans (String × Nat) (fun p q => U.indexOf p.1 ≤ U.indexOf q.1) :=
    ⟨fun p q s hpq hqs => Nat.le_trans hpq hqs⟩
  haveI : IsAntisymm (String × Nat) (fun p q => U.indexOf p.1 < U.indexOf q.1) :=
    ⟨fun p q hpq hqp => absurd hqp (Nat.lt_asymm hpq)⟩
  have hperm : List.Perm
      (List.insertionSort (fun p q => U.indexOf p.1 ≤ U.indexOf q.1) g)
      (U.map f) := (List.perm_insertionSort _ g).trans hg
  have hfstperm : List.Perm
      ((List.insertionSort (fun p q => U.indexOf p.1 ≤ U.indexOf q.1) g).map
        Prod.fst) U := by
    refine (hperm.map Prod.fst).trans ?_
    rw [List.map_map]
    have he : (Prod.fst ∘ f) = id := funext hf
    rw [he, List.map_id]
  have hnd := hfstperm.nodup_iff.mpr hU
  have hmemU : ∀ p ∈ List.insertionSort (fun p q => U.indexOf p.1 ≤ U.indexOf q.1) g,
      p.1 ∈ U := fun p hp => hfstperm.mem_iff.mp (List.mem_map_of_mem Prod.fst hp)
  have hsorted := List.sorted_insertionSort
    (fun p q => U.indexOf p.1 ≤ U.indexOf q.1) g
  have hpne := List.pairwise_map.mp hnd
  have hsorted2 : (List.insertionSort (fun p q => U.indexOf p.1 ≤ U.indexOf q.1)
      g).Pairwise (fun p q => U.indexOf p.1 < U.indexOf q.1) := by
    refine (List.Pairwise.and hsorted hpne).imp_of_mem ?_
    intro a b ha hb hr
    refine Nat.lt_of_le_of_ne hr.1 (fun he => hr.2 ?_)
    exact (List.indexOf_inj (hmemU a ha) (hmemU b hb)).mp he
  have htarget : (U.map f).Pairwise
      (fun p q => U.indexOf p.1 < U.indexOf q.1) := by
    rw [List.pairwise_map]
    have hiff : ∀ a b, (U.indexOf (f a).1 < U.indexOf (f b).1) ↔
        (U.indexOf a < U.indexOf b) := by
      intro a b
      rw [hf a, hf b]
    exact (List.Pairwise.iff hiff).mpr (pairwise_indexOf_lt U hU)
  exact List.eq_of_perm_of_sorted hperm hsorted2 htarget

/-- C9: the Summary Aggregator groups the final rows by exact equality of
the display Date string, counts rows per group, and emits the pairs in
order of each date's first occurrence in the table (first conjunct, stated
against the spec-side `summaryByFirstOccurrence`); the worked example
returns [("05/09/2025", 2), ("06/09/2025", 1)] in that order (second
conjunct); a missing table gives no summary (third conjunct). -/
theorem c9_summary_counts_first_occurrence (ds : List String) (h : ds ≠ []) :
    create_match_count_summary (some ds) = some (summaryByFirstOccurrence ds) ∧
    create_match_count_summary
      (some ["05/09/2025", "05/09/2025", "06/09/2025"]) =
      some [("05/09/2025", 2), ("06/09/2025", 1)] ∧
    create_match_count_summary none = none := by
  refine ⟨?_, rfl, rfl⟩
  unfold create_match_count_summary summaryByFirstOccurrence
  have hne : ds.isEmpty = false := by
    cases ds with
    | nil => exact absurd rfl h
    | cons a l => rfl
  simp only [hne, Bool.false_eq_true, if_false]
  exact congrArg some (sort_by_first_idx (firstOccur ds) (firstOccur_nodup ds)
    (fun d => (d, ds.count d)) (fun d => rfl) _
    ((List.perm_insertionSort _ (firstOccur ds)).map _))

theorem c9_summary_counts_first_occurrence_witness :
    create_match_count_summary (some ["05/09/2025", "05/09/2025", "06/09/2025"]) =
      some (summaryByFirstOccurrence ["05/09/2025", "05/09/2025", "06/09/2025"]) ∧
    create_match_count_summary
      (some ["05/09/2025", "05/09/2025", "06/09/2025"]) =
      some [("05/09/2025", 2), ("06/09/2025", 1)] ∧
    create_match_count_summary none = none :=
  c9_summary_counts_first_occurrence ["05/09/2025", "05/09/2025", "06/09/2025"]
    (by decide)
